import Mathlib

/-!
Verification development for `struct2csv` (package `struct2csv`, file
`struct2csv.go`): a shallow embedding of the reflection-driven CSV export
(`WriteCSV`, `extractHeaders`, `extractRow`, `isIgnoredField`,
`isSubStruct`, `formatValue`) together with theorems about header
extraction, row extraction, value formatting and the top-level
orchestration.

Modelling conventions:
* `reflect.Type` is embedded as `GoType`; a struct field
  (`reflect.StructField`) carries the result of `Tag.Get "csv"` (the empty
  string when the field has no `csv` tag), its `Anonymous` flag and its
  type.  `time.Time` gets its own constructor `timeT` so that the source's
  `field.Type != reflect.TypeOf(time.Time{})` test becomes a constructor
  distinction; every other kind the source does not scrutinise is `other`.
* `reflect.Value` is embedded as `GoValue`; `invalid` is the zero
  `reflect.Value` (as produced by `Elem()` on a nil pointer).  Calling
  `Value.Field` on a non-struct value panics in Go; functions that can hit
  such a panic return `Option` and model the panic as `none`.  The `error`
  return values of `extractHeaders`/`extractRow` are always `nil` in the
  source (the only `return nil, err` sites re-propagate an error that no
  base case ever creates), so `none` exclusively means a reflection panic.
* `strconv.FormatInt(v, 10)` is `toString (v : Int)`;
  `strconv.FormatBool` is spelled out; `strconv.FormatFloat(v, 'f', -1, 64)`
  is an external IEEE-754 shortest-decimal routine and is kept as an
  explicit parameter `fmtFloat` over opaque bit patterns, so every theorem
  below holds for an arbitrary float formatter.
* `time.Time.Format "2006-01-02 15:04"` (the only layout the source uses)
  is modelled by `goTimeFormat`: zero-padded 4-digit year and zero-padded
  2-digit month, day, 24-hour hour and minute.
-/

set_option autoImplicit false

namespace Struct2CSV

/-- A calendar instant as far as the layout `2006-01-02 15:04` observes it:
year, month, day, hour (24h) and minute. -/
structure GoTime where
  year : Nat
  month : Nat
  day : Nat
  hour : Nat
  minute : Nat
deriving DecidableEq

/-- Zero-pad a numeral to (at least) two digits, as the layout components
`01`, `02`, `15`, `04` of Go's reference time do. -/
def pad2 (n : Nat) : String :=
  if n < 10 then "0" ++ Nat.repr n else Nat.repr n

/-- Zero-pad a numeral to (at least) four digits, as the layout component
`2006` (the year) of Go's reference time does. -/
def pad4 (n : Nat) : String :=
  if n < 10 then "000" ++ Nat.repr n
  else if n < 100 then "00" ++ Nat.repr n
  else if n < 1000 then "0" ++ Nat.repr n
  else Nat.repr n

/-- `time.Time.Format "2006-01-02 15:04"`: the fixed timestamp layout used
by `formatValue` (4-digit year, 2-digit month, day, hour, minute, 24-hour
clock, no seconds, no timezone). -/
def goTimeFormat (t : GoTime) : String :=
  pad4 t.year ++ "-" ++ pad2 t.month ++ "-" ++ pad2 t.day ++ " " ++
    pad2 t.hour ++ ":" ++ pad2 t.minute

mutual
/-- The fragment of `reflect.Type` the source scrutinises. -/
inductive GoType where
  | str : GoType
  | intT : GoType
  | floatT : GoType
  | boolT : GoType
  /-- The distinguished struct type `time.Time`. -/
  | timeT : GoType
  | ptr (elem : GoType) : GoType
  /-- A struct type other than `time.Time`, given by its declared fields in
  declaration order. -/
  | structT (fields : List GoField) : GoType
  /-- A slice type with its element type. -/
  | sliceT (elem : GoType) : GoType
  /-- Any other kind (map, chan, uint, ...): never expanded, formats to "". -/
  | other : GoType

/-- `reflect.StructField`: the `csv` tag (the empty string when the tag is
absent, exactly what `Tag.Get "csv"` returns), the `Anonymous` flag, and
the field type. -/
inductive GoField where
  | mk (tag : String) (anonymous : Bool) (type : GoType) : GoField
end

/-- The `csv` tag of a field. -/
def GoField.tag : GoField → String
  | .mk t _ _ => t

/-- The `Anonymous` flag of a field. -/
def GoField.anonymous : GoField → Bool
  | .mk _ a _ => a

/-- The type of a field. -/
def GoField.type : GoField → GoType
  | .mk _ _ ty => ty

/-- The fragment of `reflect.Value` the source scrutinises.  `invalid` is
the zero `reflect.Value`, e.g. the result of `Elem()` on a nil pointer. -/
inductive GoValue where
  | strV (s : String) : GoValue
  | intV (n : Int) : GoValue
  /-- A float value, identified by its IEEE-754 bit pattern (kept opaque:
  only the external formatter `fmtFloat` ever looks at it). -/
  | floatV (bits : Nat) : GoValue
  | boolV (b : Bool) : GoValue
  | timeV (t : GoTime) : GoValue
  | ptrV (pointee : Option GoValue) : GoValue
  | structV (fields : List GoValue) : GoValue
  | sliceV (elemType : GoType) (elems : List GoValue) : GoValue
  | otherV : GoValue
  | invalid : GoValue

/-- `isIgnoredField`: a field is ignored exactly when its `csv` tag is the
sentinel `-`. -/
def isIgnoredField (f : GoField) : Bool :=
  f.tag == "-"

/-- `isSubStruct`: the field's type has struct kind, is not `time.Time`,
and the field is not embedded/anonymous. -/
def isSubStruct (f : GoField) : Bool :=
  match f with
  | .mk _ anon (.structT _) => !anon
  | _ => false

mutual
/-- The `for` loop body of `extractHeaders`, structurally over the field
list.  Ignored fields are skipped; a sub-struct field contributes the
recursively extracted headers of its type, each prefixed with
`<tag>.`; any other field contributes its tag as a single header. -/
def extractHeadersFields : List GoField → List String
  | [] => []
  | GoField.mk tag anon ty :: rest =>
    if isIgnoredField (GoField.mk tag anon ty) then
      extractHeadersFields rest
    else if isSubStruct (GoField.mk tag anon ty) then
      ((extractHeaders ty).map fun sub => tag ++ "." ++ sub) ++
        extractHeadersFields rest
    else
      tag :: extractHeadersFields rest

/-- `extractHeaders`: CSV headers of a struct type.  All call sites pass a
struct type (`WriteCSV` checks the element kind, the recursive call is
guarded by `isSubStruct`); on any other type `elemType.NumField()` would
panic, a case no execution reaches. -/
def extractHeaders : GoType → List String
  | .structT fields => extractHeadersFields fields
  | _ => []
end

/-- `value.Kind() == reflect.Slice`: the validation test at the top of
`WriteCSV`. -/
def GoValue.isSliceValue : GoValue → Bool
  | .sliceV _ _ => true
  | _ => false

/-- `reflect.Value.Field i`: the `i`-th field of a struct value; `none`
models the panic raised on any non-struct (in particular invalid) value or
an out-of-range index. -/
def fieldV : GoValue → Nat → Option GoValue
  | .structV fs, i => fs[i]?
  | _, _ => none

/-- The `switch value.Kind()` of `formatValue`, applied after the pointer
unwrap: strings verbatim, signed integers in base 10, floats through the
external formatter, booleans as `true`/`false`, the struct case formats
`time.Time` with the fixed layout and yields `""` for every other struct,
and the default case (including a second level of pointer) yields `""`. -/
def formatValueKind (fmtFloat : Nat → String) : GoValue → String
  | .strV s => s
  | .intV n => toString n
  | .floatV bits => fmtFloat bits
  | .boolV b => if b then "true" else "false"
  | .timeV t => goTimeFormat t
  | _ => ""

/-- `formatValue`: a nil pointer formats to `""`; a non-nil pointer is
dereferenced once; then the kind switch applies. -/
def formatValue (fmtFloat : Nat → String) : GoValue → String
  | .ptrV none => ""
  | .ptrV (some v) => formatValueKind fmtFloat v
  | v => formatValueKind fmtFloat v

mutual
/-- The `for` loop body of `extractRow` over the field list, carrying the
running field index `i` for `value.Field(i)`.  Ignored fields are skipped
(the loop `continue`s before touching the value); otherwise the field
value is fetched (`none` models the reflect panic on a non-struct value),
a sub-struct field contributes its recursively extracted row, and any
other field contributes one formatted cell. -/
def extractRowFields (fmtFloat : Nat → String) (value : GoValue) :
    List GoField → Nat → Option (List String)
  | [], _ => some []
  | GoField.mk tag anon ty :: rest, i =>
    if isIgnoredField (GoField.mk tag anon ty) then
      extractRowFields fmtFloat value rest (i + 1)
    else
      match fieldV value i with
      | none => none
      | some fv =>
        if isSubStruct (GoField.mk tag anon ty) then
          match extractRow fmtFloat fv ty with
          | none => none
          | some sub =>
            match extractRowFields fmtFloat value rest (i + 1) with
            | none => none
            | some tail => some (sub ++ tail)
        else
          match extractRowFields fmtFloat value rest (i + 1) with
          | none => none
          | some tail => some (formatValue fmtFloat fv :: tail)

/-- `extractRow`: one CSV row of a struct value.  As with `extractHeaders`,
every call site passes a struct type; on any other type
`elemType.NumField()` would panic (`none`). -/
def extractRow (fmtFloat : Nat → String) (value : GoValue) :
    GoType → Option (List String)
  | .structT fields => extractRowFields fmtFloat value fields 0
  | _ => none
end

/-- Derived reformulation of the `extractRow` loop that walks the list of
field values in lockstep with the field list instead of indexing with
`value.Field(i)`; `extractRowFields_eq_zip` proves it equal to the source
translation on struct values. -/
def extractRowZip (fmtFloat : Nat → String) :
    List GoValue → List GoField → Option (List String)
  | _, [] => some []
  | vs, GoField.mk tag anon ty :: rest =>
    if isIgnoredField (GoField.mk tag anon ty) then
      extractRowZip fmtFloat vs.tail rest
    else
      match vs.head? with
      | none => none
      | some fv =>
        if isSubStruct (GoField.mk tag anon ty) then
          match extractRow fmtFloat fv ty with
          | none => none
          | some sub =>
            match extractRowZip fmtFloat vs.tail rest with
            | none => none
            | some tail => some (sub ++ tail)
        else
          match extractRowZip fmtFloat vs.tail rest with
          | none => none
          | some tail => some (formatValue fmtFloat fv :: tail)

mutual
/-- Conformance of a value to a type (what `reflect` guarantees for a value
obtained from data of that static type).  A nil pointer conforms to every
pointer type; a struct value conforms when its field values conform
positionally. -/
def conforms : GoValue → GoType → Bool
  | .strV _, .str => true
  | .intV _, .intT => true
  | .floatV _, .floatT => true
  | .boolV _, .boolT => true
  | .timeV _, .timeT => true
  | .ptrV none, .ptr _ => true
  | .ptrV (some v), .ptr t => conforms v t
  | .structV fs, .structT fields => conformsFields fs fields
  /- A slice-typed field is always a formatting leaf (`isSubStruct` is
  false and the kind switch of `formatValue` defaults to `""`), so nothing
  below ever inspects a slice's elements; conformance does not constrain
  them. -/
  | .sliceV _ _, .sliceT _ => true
  | .otherV, .other => true
  | _, _ => false

/-- Positional conformance of struct field values to field declarations. -/
def conformsFields : List GoValue → List GoField → Bool
  | [], [] => true
  | v :: vs, GoField.mk _ _ ty :: fs => conforms v ty && conformsFields vs fs
  | _, _ => false
end

mutual
/-- Remove every field tagged with the exclusion sentinel `-`, at the
top level and inside every nested sub-record reached by the expansion
(`isSubStruct`) structure; fields that are never expanded (scalars,
pointers, anonymous or `time.Time` structs) keep their types untouched. -/
def eraseIgnoredFields : List GoField → List GoField
  | [] => []
  | GoField.mk tag anon ty :: rest =>
    if isIgnoredField (GoField.mk tag anon ty) then
      eraseIgnoredFields rest
    else if isSubStruct (GoField.mk tag anon ty) then
      GoField.mk tag anon (eraseIgnoredType ty) :: eraseIgnoredFields rest
    else
      GoField.mk tag anon ty :: eraseIgnoredFields rest

/-- Recurse `eraseIgnoredFields` into a sub-record type. -/
def eraseIgnoredType : GoType → GoType
  | .structT fields => .structT (eraseIgnoredFields fields)
  | t => t
end

mutual
/-- Drop the field values corresponding to fields erased by
`eraseIgnoredFields`, mirroring its traversal on a conforming value. -/
def eraseIgnoredValue : GoValue → GoType → GoValue
  | .structV fs, .structT fields => .structV (eraseIgnoredFieldValues fs fields)
  | v, _ => v

/-- Positional companion of `eraseIgnoredFields` on struct field values. -/
def eraseIgnoredFieldValues : List GoValue → List GoField → List GoValue
  | [], _ => []
  | _ :: _, [] => []
  | v :: vs, GoField.mk tag anon ty :: rest =>
    if isIgnoredField (GoField.mk tag anon ty) then
      eraseIgnoredFieldValues vs rest
    else if isSubStruct (GoField.mk tag anon ty) then
      eraseIgnoredValue v ty :: eraseIgnoredFieldValues vs rest
    else
      v :: eraseIgnoredFieldValues vs rest
end

/-- `http.Header.Set`: replaces any existing value of the key.  The header
handle is modelled as an association list; `Set` prepends the new pair and
drops every previous binding of the key. -/
def headerSet (h : List (String × String)) (k v : String) :
    List (String × String) :=
  (k, v) :: h.filter fun p => !(p.1 == k)

/-- `elem.Elem()` for the pointer branch of the row loop of `WriteCSV`:
dereference, yielding the zero (invalid) `reflect.Value` for a nil
pointer.  (`Elem()` on a non-pointer would panic; `WriteCSV` only calls it
when the element type is a pointer, so that case is unreachable and mapped
to the invalid value as well.) -/
def ptrElem : GoValue → GoValue
  | .ptrV (some v) => v
  | _ => .invalid

/-- Outcome of `WriteCSV`: the final state of the header handle, the rows
handed to the `csv.Writer` (header row first; low-level quoting and the
encoder's own error channel are the encoder's business, out of scope), and
the returned error (`none` on success, the Go error message otherwise). -/
structure WriteResult where
  header : List (String × String)
  written : List (List String)
  error : Option String
deriving DecidableEq

/-- The row loop of `WriteCSV`: each element is dereferenced when the slice
holds pointers, its row is extracted and written.  The `error` return of
`extractRow` is always `nil` in the source, so the loop's only abnormal end
is a reflection panic (`none`), which aborts the whole call. -/
def writeRows (fmtFloat : Nat → String) (fields : List GoField)
    (isPointer : Bool) : List GoValue → Option (List (List String))
  | [] => some []
  | e :: rest =>
    match extractRowFields fmtFloat (if isPointer then ptrElem e else e)
        fields 0 with
    | none => none
    | some row =>
      match writeRows fmtFloat fields isPointer rest with
      | none => none
      | some tail => some (row :: tail)

/-- `WriteCSV`: sets the two response headers unconditionally at entry,
then validates that the data is a slice of structs (one level of pointer
indirection allowed), then writes the header row followed by one row per
element.  `none` models a reflection panic (a nil pointer element reaching
`Value.Field`).

One deliberate narrowing: `reflect.Kind()` reports `Struct` for
`time.Time` as well, so Go would admit a `[]time.Time` and emit its
unexported, untagged internals; no claim exercises that corner and the
model classifies only non-`time.Time` structs as records. -/
def WriteCSV (fmtFloat : Nat → String) (h : List (String × String))
    (filename : String) (data : GoValue) : Option WriteResult :=
  let h1 := headerSet h "Content-Type" "text/csv"
  let h2 := headerSet h1 "Content-Disposition"
    ("attachment; filename=\"" ++ filename ++ "\"")
  match data with
  | .sliceV elemTy elems =>
    let isPointer : Bool := elemTy matches .ptr _
    let elemType := match elemTy with
      | .ptr e => e
      | t => t
    match elemType with
    | .structT fields =>
      match writeRows fmtFloat fields isPointer elems with
      | none => none
      | some rows => some ⟨h2, extractHeadersFields fields :: rows, none⟩
    | _ => some ⟨h2, [], some "slice elements are not structs"⟩
  | _ => some ⟨h2, [], some "data is not a slice"⟩

/-! ## Theorems -/

/-- On a struct value, the index-based row loop coincides with the
lockstep (`zip`) reformulation, starting from the values dropped up to the
current index. -/
theorem extractRowFields_eq_zip (fmtFloat : Nat → String) :
    ∀ (fields : List GoField) (fs : List GoValue) (i : Nat),
    extractRowFields fmtFloat (GoValue.structV fs) fields i =
      extractRowZip fmtFloat (fs.drop i) fields := by
  intro fields
  induction fields with
  | nil => intro fs i; rfl
  | cons f rest ih =>
    intro fs i
    obtain ⟨tag, anon, ty⟩ := f
    simp only [extractRowFields, extractRowZip, fieldV, List.head?_drop,
      List.tail_drop, ih]

/-- `extractRow` on a struct value and its field list is the zip loop. -/
theorem extractRow_structV (fmtFloat : Nat → String) (fields : List GoField)
    (fs : List GoValue) :
    extractRow fmtFloat (GoValue.structV fs) (GoType.structT fields) =
      extractRowZip fmtFloat fs fields := by
  have h := extractRowFields_eq_zip fmtFloat fields fs 0
  simpa [extractRow] using h

/-- `isIgnoredField` looks only at the tag. -/
theorem isIgnoredField_mk (tag : String) (anon : Bool) (ty : GoType) :
    isIgnoredField (GoField.mk tag anon ty) = (tag == "-") := rfl

/-- Inversion: a value conforming to a struct type is a struct value with
positionally conforming fields. -/
theorem conforms_structT_inv (v : GoValue) (fields : List GoField)
    (h : conforms v (GoType.structT fields) = true) :
    ∃ gs, v = GoValue.structV gs ∧ conformsFields gs fields = true := by
  cases v with
  | structV gs => exact ⟨gs, rfl, by simpa [conforms] using h⟩
  | strV s => simp [conforms] at h
  | intV n => simp [conforms] at h
  | floatV b => simp [conforms] at h
  | boolV b => simp [conforms] at h
  | timeV t => simp [conforms] at h
  | ptrV p => simp [conforms] at h
  | sliceV t es => simp [conforms] at h
  | otherV => simp [conforms] at h
  | invalid => simp [conforms] at h

/-- Fuel-indexed workhorse for the column-count invariant: on conforming
field values the zip row loop succeeds and produces exactly as many cells
as `extractHeadersFields` produces headers. -/
theorem rowZipLengthAux (fmtFloat : Nat → String) :
    ∀ (n : Nat) (fields : List GoField), sizeOf fields ≤ n →
    ∀ (fs : List GoValue), conformsFields fs fields = true →
    ∃ row, extractRowZip fmtFloat fs fields = some row ∧
      row.length = (extractHeadersFields fields).length := by
  intro n
  induction n with
  | zero =>
    intro fields hsz
    exfalso
    cases fields with
    | nil => simp at hsz
    | cons f rest => simp [List.cons.sizeOf_spec] at hsz
  | succ n ih =>
    intro fields hsz fs hconf
    cases fields with
    | nil =>
      cases fs with
      | nil => exact ⟨[], rfl, rfl⟩
      | cons v vs => simp [conformsFields] at hconf
    | cons f rest =>
      obtain ⟨tag, anon, ty⟩ := f
      cases fs with
      | nil => simp [conformsFields] at hconf
      | cons v vs =>
        rw [conformsFields, Bool.and_eq_true] at hconf
        obtain ⟨hv, hrest⟩ := hconf
        have hszrest : sizeOf rest ≤ n := by
          simp [List.cons.sizeOf_spec] at hsz; omega
        obtain ⟨tail, htail, hlen⟩ := ih rest hszrest vs hrest
        cases hig : isIgnoredField (GoField.mk tag anon ty) with
        | true =>
          refine ⟨tail, ?_, ?_⟩
          · simp [extractRowZip, hig, htail]
          · simp [extractHeadersFields, hig, hlen]
        | false =>
          cases hss : isSubStruct (GoField.mk tag anon ty) with
          | false =>
            refine ⟨formatValue fmtFloat v :: tail, ?_, ?_⟩
            · simp [extractRowZip, hig, hss, htail]
            · simp [extractHeadersFields, hig, hss, hlen]
          | true =>
            cases ty with
            | structT inner =>
              rw [isSubStruct, Bool.not_eq_eq_eq_not, Bool.not_true] at hss
              subst hss
              obtain ⟨gs, rfl, hgs⟩ := conforms_structT_inv v inner (by simpa [conforms] using hv)
              have hszinner : sizeOf inner ≤ n := by
                simp [List.cons.sizeOf_spec, GoField.mk.sizeOf_spec,
                  GoType.structT.sizeOf_spec] at hsz
                omega
              obtain ⟨sub, hsub, hsublen⟩ := ih inner hszinner gs hgs
              refine ⟨sub ++ tail, ?_, ?_⟩
              · simp [extractRowZip, hig, isSubStruct,
                  extractRow_structV, hsub, htail]
              · simp [extractHeadersFields, hig, isSubStruct,
                  extractHeaders, hsublen, hlen]
            | str => simp [isSubStruct] at hss
            | intT => simp [isSubStruct] at hss
            | floatT => simp [isSubStruct] at hss
            | boolT => simp [isSubStruct] at hss
            | timeT => simp [isSubStruct] at hss
            | ptr e => simp [isSubStruct] at hss
            | sliceT e => simp [isSubStruct] at hss
            | other => simp [isSubStruct] at hss

/-- On conforming field values the zip row loop succeeds with exactly one
cell per header. -/
theorem rowZipLength (fmtFloat : Nat → String) (fields : List GoField)
    (fs : List GoValue) (hconf : conformsFields fs fields = true) :
    ∃ row, extractRowZip fmtFloat fs fields = some row ∧
      row.length = (extractHeadersFields fields).length :=
  rowZipLengthAux fmtFloat (sizeOf fields) fields (Nat.le_refl _) fs hconf

/-- C5: Column-count invariant: for every record type and every record
value of that type, row extraction succeeds and the number of formatted
cells it produces equals the number of columns produced by header
extraction for that type. -/
theorem C5_column_count_invariant (fmtFloat : Nat → String)
    (fields : List GoField) (v : GoValue)
    (h : conforms v (GoType.structT fields) = true) :
    ∃ row, extractRow fmtFloat v (GoType.structT fields) = some row ∧
      row.length = (extractHeaders (GoType.structT fields)).length := by
  obtain ⟨gs, rfl, hgs⟩ := conforms_structT_inv v fields h
  obtain ⟨row, hr, hl⟩ := rowZipLength fmtFloat fields gs hgs
  refine ⟨row, ?_, ?_⟩
  · rw [extractRow_structV]; exact hr
  · simpa [extractHeaders] using hl

/-- C5 witness: the invariant at a concrete record type (a string field,
an excluded field, a nested sub-record with a pointer field) and a
concrete conforming value. -/
theorem C5_column_count_invariant_witness :
    conforms
        (GoValue.structV [GoValue.strV "ann", GoValue.intV 7,
          GoValue.structV [GoValue.ptrV (some (GoValue.strV "a@b"))]])
        (GoType.structT [GoField.mk "name" false GoType.str,
          GoField.mk "-" false GoType.intT,
          GoField.mk "user" false
            (GoType.structT [GoField.mk "email" false (GoType.ptr GoType.str)])]) =
      true ∧
    ∃ row,
      extractRow (fun _ => "")
          (GoValue.structV [GoValue.strV "ann", GoValue.intV 7,
            GoValue.structV [GoValue.ptrV (some (GoValue.strV "a@b"))]])
          (GoType.structT [GoField.mk "name" false GoType.str,
            GoField.mk "-" false GoType.intT,
            GoField.mk "user" false
              (GoType.structT [GoField.mk "email" false (GoType.ptr GoType.str)])]) =
        some row ∧
      row.length =
        (extractHeaders
          (GoType.structT [GoField.mk "name" false GoType.str,
            GoField.mk "-" false GoType.intT,
            GoField.mk "user" false
              (GoType.structT [GoField.mk "email" false (GoType.ptr GoType.str)])])).length :=
  ⟨by decide, C5_column_count_invariant (fun _ => "") _ _ (by decide)⟩

/-- Fuel-indexed: erasing all sentinel-tagged fields (at every expansion
level) leaves the extracted headers unchanged. -/
theorem eraseHeadersAux :
    ∀ (n : Nat) (fields : List GoField), sizeOf fields ≤ n →
    extractHeadersFields (eraseIgnoredFields fields) =
      extractHeadersFields fields := by
  intro n
  induction n with
  | zero =>
    intro fields hsz
    exfalso
    cases fields with
    | nil => simp at hsz
    | cons f rest => simp [List.cons.sizeOf_spec] at hsz
  | succ n ih =>
    intro fields hsz
    cases fields with
    | nil => rfl
    | cons f rest =>
      obtain ⟨tag, anon, ty⟩ := f
      have hszrest : sizeOf rest ≤ n := by
        simp [List.cons.sizeOf_spec] at hsz; omega
      cases hig : isIgnoredField (GoField.mk tag anon ty) with
      | true =>
        simp [eraseIgnoredFields, extractHeadersFields, hig, ih rest hszrest]
      | false =>
        cases hss : isSubStruct (GoField.mk tag anon ty) with
        | false =>
          simp [eraseIgnoredFields, extractHeadersFields, hig, hss,
            ih rest hszrest]
        | true =>
          cases ty with
          | structT inner =>
            rw [isSubStruct, Bool.not_eq_eq_eq_not, Bool.not_true] at hss
            subst hss
            have hszinner : sizeOf inner ≤ n := by
              simp [List.cons.sizeOf_spec, GoField.mk.sizeOf_spec,
                GoType.structT.sizeOf_spec] at hsz
              omega
            rw [isIgnoredField_mk] at hig
            simp [eraseIgnoredFields, extractHeadersFields, isIgnoredField_mk,
              hig, isSubStruct, eraseIgnoredType, extractHeaders,
              ih rest hszrest, ih inner hszinner]
          | str => simp [isSubStruct] at hss
          | intT => simp [isSubStruct] at hss
          | floatT => simp [isSubStruct] at hss
          | boolT => simp [isSubStruct] at hss
          | timeT => simp [isSubStruct] at hss
          | ptr e => simp [isSubStruct] at hss
          | sliceT e => simp [isSubStruct] at hss
          | other => simp [isSubStruct] at hss

/-- Fuel-indexed: erasing all sentinel-tagged fields together with their
values (at every expansion level) leaves the extracted row unchanged on
conforming values. -/
theorem eraseRowAux (fmtFloat : Nat → String) :
    ∀ (n : Nat) (fields : List GoField), sizeOf fields ≤ n →
    ∀ (fs : List GoValue), conformsFields fs fields = true →
    extractRowZip fmtFloat (eraseIgnoredFieldValues fs fields)
        (eraseIgnoredFields fields) =
      extractRowZip fmtFloat fs fields := by
  intro n
  induction n with
  | zero =>
    intro fields hsz
    exfalso
    cases fields with
    | nil => simp at hsz
    | cons f rest => simp [List.cons.sizeOf_spec] at hsz
  | succ n ih =>
    intro fields hsz fs hconf
    cases fields with
    | nil => cases fs <;> rfl
    | cons f rest =>
      obtain ⟨tag, anon, ty⟩ := f
      cases fs with
      | nil => simp [conformsFields] at hconf
      | cons v vs =>
        rw [conformsFields, Bool.and_eq_true] at hconf
        obtain ⟨hv, hrest⟩ := hconf
        have hszrest : sizeOf rest ≤ n := by
          simp [List.cons.sizeOf_spec] at hsz; omega
        cases hig : isIgnoredField (GoField.mk tag anon ty) with
        | true =>
          simp [eraseIgnoredFieldValues, eraseIgnoredFields, extractRowZip,
            hig, ih rest hszrest vs hrest]
        | false =>
          cases hss : isSubStruct (GoField.mk tag anon ty) with
          | false =>
            simp [eraseIgnoredFieldValues, eraseIgnoredFields, extractRowZip,
              hig, hss, ih rest hszrest vs hrest]
          | true =>
            cases ty with
            | structT inner =>
              rw [isSubStruct, Bool.not_eq_eq_eq_not, Bool.not_true] at hss
              subst hss
              obtain ⟨gs, rfl, hgs⟩ := conforms_structT_inv v inner hv
              have hszinner : sizeOf inner ≤ n := by
                simp [List.cons.sizeOf_spec, GoField.mk.sizeOf_spec,
                  GoType.structT.sizeOf_spec] at hsz
                omega
              rw [isIgnoredField_mk] at hig
              simp [eraseIgnoredFieldValues, eraseIgnoredFields,
                extractRowZip, isIgnoredField_mk, hig, isSubStruct,
                eraseIgnoredType, eraseIgnoredValue, extractRow_structV,
                ih rest hszrest vs hrest, ih inner hszinner gs hgs]
            | str => simp [isSubStruct] at hss
            | intT => simp [isSubStruct] at hss
            | floatT => simp [isSubStruct] at hss
            | boolT => simp [isSubStruct] at hss
            | timeT => simp [isSubStruct] at hss
            | ptr e => simp [isSubStruct] at hss
            | sliceT e => simp [isSubStruct] at hss
            | other => simp [isSubStruct] at hss

/-- C6: Exclusion invariant: removing every field tagged with the
exclusion sentinel `-` — at the top level and at every nesting level
reached by sub-record expansion — changes neither the extracted header row
nor the extracted data row of any conforming record value: such fields
never appear in the header row and never contribute a cell. -/
theorem C6_exclusion_invariant (fmtFloat : Nat → String)
    (fields : List GoField) (v : GoValue)
    (h : conforms v (GoType.structT fields) = true) :
    extractHeaders (GoType.structT (eraseIgnoredFields fields)) =
      extractHeaders (GoType.structT fields) ∧
    extractRow fmtFloat (eraseIgnoredValue v (GoType.structT fields))
        (GoType.structT (eraseIgnoredFields fields)) =
      extractRow fmtFloat v (GoType.structT fields) := by
  obtain ⟨gs, rfl, hgs⟩ := conforms_structT_inv v fields h
  constructor
  · simpa [extractHeaders] using
      eraseHeadersAux (sizeOf fields) fields (Nat.le_refl _)
  · rw [eraseIgnoredValue, extractRow_structV, extractRow_structV]
    exact eraseRowAux fmtFloat (sizeOf fields) fields (Nat.le_refl _) gs hgs

/-- C6 witness: the invariant at a concrete type with a sentinel-tagged
field at the top level and another inside a nested sub-record. -/
theorem C6_exclusion_invariant_witness :
    conforms
        (GoValue.structV [GoValue.intV 1, GoValue.strV "n",
          GoValue.structV [GoValue.strV "secret", GoValue.strV "e@x"]])
        (GoType.structT [GoField.mk "-" false GoType.intT,
          GoField.mk "name" false GoType.str,
          GoField.mk "contact" false
            (GoType.structT [GoField.mk "-" false GoType.str,
              GoField.mk "email" false GoType.str])]) = true ∧
    (extractHeaders
        (GoType.structT (eraseIgnoredFields
          [GoField.mk "-" false GoType.intT,
            GoField.mk "name" false GoType.str,
            GoField.mk "contact" false
              (GoType.structT [GoField.mk "-" false GoType.str,
                GoField.mk "email" false GoType.str])])) =
      extractHeaders
        (GoType.structT [GoField.mk "-" false GoType.intT,
          GoField.mk "name" false GoType.str,
          GoField.mk "contact" false
            (GoType.structT [GoField.mk "-" false GoType.str,
              GoField.mk "email" false GoType.str])]) ∧
    extractRow (fun _ => "")
        (eraseIgnoredValue
          (GoValue.structV [GoValue.intV 1, GoValue.strV "n",
            GoValue.structV [GoValue.strV "secret", GoValue.strV "e@x"]])
          (GoType.structT [GoField.mk "-" false GoType.intT,
            GoField.mk "name" false GoType.str,
            GoField.mk "contact" false
              (GoType.structT [GoField.mk "-" false GoType.str,
                GoField.mk "email" false GoType.str])]))
        (GoType.structT (eraseIgnoredFields
          [GoField.mk "-" false GoType.intT,
            GoField.mk "name" false GoType.str,
            GoField.mk "contact" false
              (GoType.structT [GoField.mk "-" false GoType.str,
                GoField.mk "email" false GoType.str])])) =
      extractRow (fun _ => "")
        (GoValue.structV [GoValue.intV 1, GoValue.strV "n",
          GoValue.structV [GoValue.strV "secret", GoValue.strV "e@x"]])
        (GoType.structT [GoField.mk "-" false GoType.intT,
          GoField.mk "name" false GoType.str,
          GoField.mk "contact" false
            (GoType.structT [GoField.mk "-" false GoType.str,
              GoField.mk "email" false GoType.str])])) :=
  ⟨by decide, C6_exclusion_invariant (fun _ => "") _ _ (by decide)⟩

/-- C1 counterexample: flattening is not one level deep.  For a record
type whose nested sub-record `a` itself contains a nested sub-record `b`
with field `c` (two levels deep), header extraction produces the fully
expanded column `a.b.c` — not the one-level column `a.b` the claim
requires — and row extraction surfaces the depth-two leaf value. -/
theorem C1_counterexample :
    extractHeaders (GoType.structT [GoField.mk "a" false
        (GoType.structT [GoField.mk "b" false
          (GoType.structT [GoField.mk "c" false GoType.str])])]) =
      ["a.b.c"] ∧
    extractHeaders (GoType.structT [GoField.mk "a" false
        (GoType.structT [GoField.mk "b" false
          (GoType.structT [GoField.mk "c" false GoType.str])])]) ≠
      ["a.b"] ∧
    extractRow (fun _ => "")
        (GoValue.structV [GoValue.structV [GoValue.structV [GoValue.strV "z"]]])
        (GoType.structT [GoField.mk "a" false
          (GoType.structT [GoField.mk "b" false
            (GoType.structT [GoField.mk "c" false GoType.str])])]) =
      some ["z"] := by
  refine ⟨by decide, by decide, by decide⟩

/-- C1 amended: flattening of nested sub-records is recursive to arbitrary
depth: a non-excluded sub-record field is expanded into the recursively
extracted headers of its own type — so a second-level sub-record is
expanded again — each prefixed with the field's label and `.`, and its
recursively extracted cells are appended in place in the row. -/
theorem C1_amended_recursive_flattening (fmtFloat : Nat → String)
    (tag : String) (inner : List GoField) (rest : List GoField)
    (h : tag ≠ "-") :
    extractHeadersFields (GoField.mk tag false (GoType.structT inner) :: rest) =
      ((extractHeadersFields inner).map fun s => tag ++ "." ++ s) ++
        extractHeadersFields rest ∧
    ∀ (gs : List GoValue) (vs : List GoValue) (sub tail : List String),
      extractRowZip fmtFloat gs inner = some sub →
      extractRowZip fmtFloat vs rest = some tail →
      extractRowZip fmtFloat (GoValue.structV gs :: vs)
          (GoField.mk tag false (GoType.structT inner) :: rest) =
        some (sub ++ tail) := by
  have hig : (tag == "-") = false := beq_eq_false_iff_ne.mpr h
  constructor
  · simp [extractHeadersFields, isIgnoredField_mk, hig, isSubStruct,
      extractHeaders]
  · intro gs vs sub tail hsub htail
    simp [extractRowZip, isIgnoredField_mk, hig, isSubStruct,
      extractRow_structV, hsub, htail]

/-- C1 amended witness: the recursion equation applied to the two-level
record type of the counterexample. -/
theorem C1_amended_recursive_flattening_witness :
    "a" ≠ "-" ∧
    (extractHeadersFields [GoField.mk "a" false
        (GoType.structT [GoField.mk "b" false
          (GoType.structT [GoField.mk "c" false GoType.str])])] =
      ((extractHeadersFields [GoField.mk "b" false
          (GoType.structT [GoField.mk "c" false GoType.str])]).map
        fun s => "a" ++ "." ++ s) ++ extractHeadersFields [] ∧
    ∀ (gs : List GoValue) (vs : List GoValue) (sub tail : List String),
      extractRowZip (fun _ => "") gs
          [GoField.mk "b" false
            (GoType.structT [GoField.mk "c" false GoType.str])] = some sub →
      extractRowZip (fun _ => "") vs [] = some tail →
      extractRowZip (fun _ => "") (GoValue.structV gs :: vs)
          (GoField.mk "a" false
            (GoType.structT [GoField.mk "b" false
              (GoType.structT [GoField.mk "c" false GoType.str])]) :: []) =
        some (sub ++ tail)) :=
  ⟨by decide, C1_amended_recursive_flattening (fun _ => "") "a" _ _ (by decide)⟩

/-- C2 counterexample: a field with no `csv` tag at all (`Tag.Get` yields
the empty string) is not excluded: it contributes a header column labelled
by the empty string and a formatted cell in the data row. -/
theorem C2_counterexample :
    extractHeaders (GoType.structT [GoField.mk "" false GoType.str]) = [""] ∧
    extractHeaders (GoType.structT [GoField.mk "" false GoType.str]) ≠ [] ∧
    extractRow (fun _ => "") (GoValue.structV [GoValue.strV "hi"])
        (GoType.structT [GoField.mk "" false GoType.str]) = some ["hi"] ∧
    some ["hi"] ≠ some ([] : List String) := by
  refine ⟨by decide, by decide, by decide, by decide⟩

/-- C2 amended: only the exact tag `-` excludes a field.  A field carrying
no `csv` tag is included: it contributes one header column whose label is
the empty string and one formatted cell in every data row (when it is not
itself an expanded sub-record). -/
theorem C2_amended_untagged_included (fmtFloat : Nat → String) (anon : Bool)
    (ty : GoType) (rest : List GoField) (v : GoValue) (vs : List GoValue)
    (h : isSubStruct (GoField.mk "" anon ty) = false) :
    extractHeadersFields (GoField.mk "" anon ty :: rest) =
      "" :: extractHeadersFields rest ∧
    extractRowZip fmtFloat (v :: vs) (GoField.mk "" anon ty :: rest) =
      (extractRowZip fmtFloat vs rest).map
        fun tail => formatValue fmtFloat v :: tail := by
  constructor
  · simp [extractHeadersFields, isIgnoredField_mk, h]
  · cases htail : extractRowZip fmtFloat vs rest with
    | none => simp [extractRowZip, isIgnoredField_mk, h, htail]
    | some tail => simp [extractRowZip, isIgnoredField_mk, h, htail]

/-- C2 amended witness: an untagged string field next to a tagged one. -/
theorem C2_amended_untagged_included_witness :
    isSubStruct (GoField.mk "" false GoType.str) = false ∧
    (extractHeadersFields
        [GoField.mk "" false GoType.str, GoField.mk "b" false GoType.boolT] =
      "" :: extractHeadersFields [GoField.mk "b" false GoType.boolT] ∧
    extractRowZip (fun _ => "") [GoValue.strV "hi", GoValue.boolV true]
        [GoField.mk "" false GoType.str, GoField.mk "b" false GoType.boolT] =
      (extractRowZip (fun _ => "") [GoValue.boolV true]
          [GoField.mk "b" false GoType.boolT]).map
        fun tail => formatValue (fun _ => "") (GoValue.strV "hi") :: tail) :=
  ⟨by decide, C2_amended_untagged_included (fun _ => "") false GoType.str _
    (GoValue.strV "hi") [GoValue.boolV true] (by decide)⟩

/-- Row extraction over the invalid (zero) `reflect.Value` panics as soon
as the loop reaches any non-excluded field (`Value.Field` on a non-struct
value). -/
theorem extractRowFields_invalid (fmtFloat : Nat → String) :
    ∀ (fields : List GoField) (i : Nat),
    (∃ f ∈ fields, isIgnoredField f = false) →
    extractRowFields fmtFloat GoValue.invalid fields i = none := by
  intro fields
  induction fields with
  | nil =>
    intro i h
    obtain ⟨f, hf, _⟩ := h
    cases hf
  | cons f rest ih =>
    intro i h
    obtain ⟨tag, anon, ty⟩ := f
    cases hig : isIgnoredField (GoField.mk tag anon ty) with
    | true =>
      obtain ⟨g, hg, hgig⟩ := h
      rcases List.mem_cons.mp hg with rfl | hmem
      · rw [hig] at hgig; cases hgig
      · simp [extractRowFields, hig, ih (i + 1) ⟨g, hmem, hgig⟩]
    | false =>
      simp [extractRowFields, hig, fieldV]

/-- The row loop of `WriteCSV` over a pointer-element slice aborts with a
panic whenever some element is a nil pointer and the record type has at
least one non-excluded field. -/
theorem writeRows_nil_elem (fmtFloat : Nat → String) (fields : List GoField)
    (hf : ∃ f ∈ fields, isIgnoredField f = false) :
    ∀ (elems : List GoValue), GoValue.ptrV none ∈ elems →
    writeRows fmtFloat fields true elems = none := by
  intro elems
  induction elems with
  | nil => intro hm; cases hm
  | cons e rest ih =>
    intro hm
    rcases List.mem_cons.mp hm with rfl | hmem
    · simp [writeRows, ptrElem, extractRowFields_invalid fmtFloat fields 0 hf]
    · cases hrow : extractRowFields fmtFloat (ptrElem e) fields 0 with
      | none => simp [writeRows, hrow]
      | some row => simp [writeRows, hrow, ih hmem]

/-- C3 counterexample: exporting a slice of pointers containing a single
nil element does not succeed with empty-string cells — it crashes
(`Value.Field` panics on the zero value obtained from `Elem()` on the nil
pointer), modelled as `none`. -/
theorem C3_counterexample :
    WriteCSV (fun _ => "") [] "export.csv"
        (GoValue.sliceV (GoType.ptr (GoType.structT
            [GoField.mk "x" false GoType.str]))
          [GoValue.ptrV none]) = none := by
  decide

/-- C3 amended: an individual nil element of a pointer-element slice is
not tolerated: whenever the record type has at least one non-excluded
field, the export panics (aborts) on the nil element.  Nil references are
tolerated — and format as the empty string — only at the leaf-value level,
i.e. for nil pointer-typed fields inside a record. -/
theorem C3_amended_nil_element_panics (fmtFloat : Nat → String)
    (h : List (String × String)) (filename : String)
    (fields : List GoField) (elems : List GoValue)
    (hf : ∃ f ∈ fields, isIgnoredField f = false)
    (hm : GoValue.ptrV none ∈ elems) :
    WriteCSV fmtFloat h filename
        (GoValue.sliceV (GoType.ptr (GoType.structT fields)) elems) = none ∧
    formatValue fmtFloat (GoValue.ptrV none) = "" := by
  refine ⟨?_, rfl⟩
  simp [WriteCSV, writeRows_nil_elem fmtFloat fields hf elems hm]

/-- C3 amended witness: a two-element slice whose second element is nil. -/
theorem C3_amended_nil_element_panics_witness :
    (∃ f ∈ [GoField.mk "x" false GoType.str], isIgnoredField f = false) ∧
    GoValue.ptrV none ∈
      [GoValue.ptrV (some (GoValue.structV [GoValue.strV "ok"])),
        GoValue.ptrV none] ∧
    (WriteCSV (fun _ => "") [] "export.csv"
        (GoValue.sliceV (GoType.ptr (GoType.structT
            [GoField.mk "x" false GoType.str]))
          [GoValue.ptrV (some (GoValue.structV [GoValue.strV "ok"])),
            GoValue.ptrV none]) = none ∧
      formatValue (fun _ => "") (GoValue.ptrV none) = "") :=
  ⟨⟨GoField.mk "x" false GoType.str, List.Mem.head _, by decide⟩,
    List.Mem.tail _ (List.Mem.head _),
    C3_amended_nil_element_panics (fun _ => "") [] "export.csv" _ _
      ⟨GoField.mk "x" false GoType.str, List.Mem.head _, by decide⟩
      (List.Mem.tail _ (List.Mem.head _))⟩

/-- C4 counterexample: on a non-slice input `WriteCSV` does return the
`NotASequence` error with nothing written to the sink, but the header
handle is not left unchanged: both response headers are set before the
slice check runs. -/
theorem C4_counterexample :
    WriteCSV (fun _ => "") [] "file" (GoValue.strV "x") =
      some ⟨[("Content-Disposition", "attachment; filename=\"file\""),
          ("Content-Type", "text/csv")], [], some "data is not a slice"⟩ ∧
    ([("Content-Disposition", "attachment; filename=\"file\""),
        ("Content-Type", "text/csv")] : List (String × String)) ≠ [] := by
  refine ⟨by decide, by decide⟩

/-- C4 amended: for every non-slice input the operation fails with the
`NotASequence` error and writes nothing to the sink, but only after
mutating the header handle: the content-type and content-disposition
headers are set unconditionally at function entry. -/
theorem C4_amended_not_a_sequence (fmtFloat : Nat → String)
    (h : List (String × String)) (filename : String) (v : GoValue)
    (hv : GoValue.isSliceValue v = false) :
    WriteCSV fmtFloat h filename v =
      some ⟨headerSet (headerSet h "Content-Type" "text/csv")
          "Content-Disposition"
          ("attachment; filename=\"" ++ filename ++ "\""),
        [], some "data is not a slice"⟩ := by
  cases v <;> first
    | rfl
    | simp [GoValue.isSliceValue] at hv

/-- C4 amended witness: a string input with a nonempty initial header
handle. -/
theorem C4_amended_not_a_sequence_witness :
    GoValue.isSliceValue (GoValue.strV "x") = false ∧
    WriteCSV (fun _ => "") [("X-Prior", "kept")] "file" (GoValue.strV "x") =
      some ⟨headerSet (headerSet [("X-Prior", "kept")]
          "Content-Type" "text/csv") "Content-Disposition"
          ("attachment; filename=\"" ++ "file" ++ "\""),
        [], some "data is not a slice"⟩ :=
  ⟨by decide, C4_amended_not_a_sequence (fun _ => "") [("X-Prior", "kept")]
    "file" (GoValue.strV "x") (by decide)⟩

/-- Exact output length of the decimal digit loop underlying `Nat.repr`:
one character per decimal digit, on top of the accumulator. -/
theorem toDigitsCore_length_exact :
    ∀ (f n : Nat) (ds : List Char), n < f →
    (Nat.toDigitsCore 10 f n ds).length = Nat.log 10 n + 1 + ds.length := by
  intro f
  induction f with
  | zero => intro n ds h; exact absurd h (Nat.not_lt_zero n)
  | succ f ih =>
    intro n ds h
    rw [Nat.toDigitsCore]
    by_cases h0 : n / 10 = 0
    · have hn : n < 10 := by omega
      have hlog : Nat.log 10 n = 0 := Nat.log_of_lt hn
      simp [h0, hlog]
      omega
    · have hrec : n / 10 < f := by omega
      rw [if_neg h0, ih (n / 10) _ hrec]
      have hlow : Nat.log 10 (n / 10) = Nat.log 10 n - 1 := Nat.log_div_base 10 n
      have hpos : 0 < Nat.log 10 n := Nat.log_pos (by norm_num) (by omega)
      simp [hlow]
      omega

/-- `Nat.repr n` has exactly `Nat.log 10 n + 1` characters. -/
theorem repr_length_exact (n : Nat) : (Nat.repr n).length = Nat.log 10 n + 1 := by
  have h := toDigitsCore_length_exact (n + 1) n [] (Nat.lt_succ_self n)
  rw [Nat.repr, Nat.toDigits]
  simpa using h

/-- Any numeral below 100 pads to exactly two characters. -/
theorem pad2_length (n : Nat) (h : n < 100) : (pad2 n).length = 2 := by
  unfold pad2
  by_cases h10 : n < 10
  · rw [if_pos h10, String.length_append, repr_length_exact, Nat.log_of_lt h10]
    decide
  · have hlog : Nat.log 10 n = 1 := by
      have h1 : (10 : Nat) ^ 1 ≤ n := by rw [pow_one]; omega
      have h2 : n < (10 : Nat) ^ (1 + 1) := by
        have : (10 : Nat) ^ (1 + 1) = 100 := by norm_num
        omega
      exact Nat.log_eq_of_pow_le_of_lt_pow h1 h2
    rw [if_neg h10, repr_length_exact, hlog]

/-- Any numeral below 10000 pads to exactly four characters. -/
theorem pad4_length (n : Nat) (h : n < 10000) : (pad4 n).length = 4 := by
  unfold pad4
  by_cases h10 : n < 10
  · rw [if_pos h10, String.length_append, repr_length_exact, Nat.log_of_lt h10]
    decide
  · by_cases h100 : n < 100
    · have hlog : Nat.log 10 n = 1 := by
        have h1 : (10 : Nat) ^ 1 ≤ n := by rw [pow_one]; omega
        have h2 : n < (10 : Nat) ^ (1 + 1) := by
          have : (10 : Nat) ^ (1 + 1) = 100 := by norm_num
          omega
        exact Nat.log_eq_of_pow_le_of_lt_pow h1 h2
      rw [if_neg h10, if_pos h100, String.length_append, repr_length_exact,
        hlog]
      decide
    · by_cases h1000 : n < 1000
      · have hlog : Nat.log 10 n = 2 := by
          have h1 : (10 : Nat) ^ 2 ≤ n := by
            have : (10 : Nat) ^ 2 = 100 := by norm_num
            omega
          have h2 : n < (10 : Nat) ^ (2 + 1) := by
            have : (10 : Nat) ^ (2 + 1) = 1000 := by norm_num
            omega
          exact Nat.log_eq_of_pow_le_of_lt_pow h1 h2
        rw [if_neg h10, if_neg h100, if_pos h1000, String.length_append,
          repr_length_exact, hlog]
        decide
      · have hlog : Nat.log 10 n = 3 := by
          have h1 : (10 : Nat) ^ 3 ≤ n := by
            have : (10 : Nat) ^ 3 = 1000 := by norm_num
            omega
          have h2 : n < (10 : Nat) ^ (3 + 1) := by
            have : (10 : Nat) ^ (3 + 1) = 10000 := by norm_num
            omega
          exact Nat.log_eq_of_pow_le_of_lt_pow h1 h2
        rw [if_neg h10, if_neg h100, if_neg h1000, repr_length_exact, hlog]

/-- C7: the value formatter maps a nil reference to the empty string with
no error, and dereferences a non-nil reference exactly once, formatting
the referenced value by the per-kind policy — in particular a pointer to a
pointer is not dereferenced a second time (it falls to the default empty
string). -/
theorem C7_null_reference_formatting (fmtFloat : Nat → String) :
    formatValue fmtFloat (GoValue.ptrV none) = "" ∧
    (∀ s : String,
      formatValue fmtFloat (GoValue.ptrV (some (GoValue.strV s))) = s) ∧
    (∀ n : Int, formatValue fmtFloat
      (GoValue.ptrV (some (GoValue.intV n))) = toString n) ∧
    (∀ bits : Nat, formatValue fmtFloat
      (GoValue.ptrV (some (GoValue.floatV bits))) = fmtFloat bits) ∧
    (∀ b : Bool, formatValue fmtFloat (GoValue.ptrV (some (GoValue.boolV b))) =
      if b then "true" else "false") ∧
    (∀ t : GoTime, formatValue fmtFloat
      (GoValue.ptrV (some (GoValue.timeV t))) = goTimeFormat t) ∧
    (∀ p : Option GoValue,
      formatValue fmtFloat (GoValue.ptrV (some (GoValue.ptrV p))) = "") :=
  ⟨rfl, fun _ => rfl, fun _ => rfl, fun _ => rfl, fun _ => rfl,
    fun _ => rfl, fun _ => rfl⟩

/-- C7 witness: nil pointer, pointer to a string, and a double pointer at
concrete values. -/
theorem C7_null_reference_formatting_witness :
    formatValue (fun _ => "") (GoValue.ptrV none) = "" ∧
    formatValue (fun _ => "") (GoValue.ptrV (some (GoValue.strV "ref"))) =
      "ref" ∧
    formatValue (fun _ => "")
        (GoValue.ptrV (some (GoValue.ptrV (some (GoValue.strV "deep"))))) =
      "" :=
  ⟨(C7_null_reference_formatting (fun _ => "")).1,
    (C7_null_reference_formatting (fun _ => "")).2.1 "ref",
    (C7_null_reference_formatting (fun _ => "")).2.2.2.2.2.2
      (some (GoValue.strV "deep"))⟩

/-- C8: timestamp-kind values are formatted with the fixed pattern
`YYYY-MM-DD HH:MM`: the output is the 4-digit zero-padded year, `-`, the
2-digit zero-padded month, `-`, day, a space, the 2-digit 24-hour hour,
`:`, and the 2-digit minute — no seconds and no timezone offset; in
particular the instant 2023-07-04 09:05 formats to exactly
`2023-07-04 09:05`. -/
theorem C8_timestamp_format (fmtFloat : Nat → String) :
    (∀ t : GoTime, formatValue fmtFloat (GoValue.timeV t) =
      pad4 t.year ++ "-" ++ pad2 t.month ++ "-" ++ pad2 t.day ++ " " ++
        pad2 t.hour ++ ":" ++ pad2 t.minute) ∧
    (∀ n : Nat, n < 100 → (pad2 n).length = 2) ∧
    (∀ n : Nat, n < 10000 → (pad4 n).length = 4) ∧
    formatValue fmtFloat (GoValue.timeV (GoTime.mk 2023 7 4 9 5)) =
      "2023-07-04 09:05" := by
  exact ⟨fun t => rfl, pad2_length, pad4_length, rfl⟩

/-- C8 witness: the padding bounds discharged at the concrete instant
2023-07-04 09:05. -/
theorem C8_timestamp_format_witness :
    formatValue (fun _ => "") (GoValue.timeV (GoTime.mk 2023 7 4 9 5)) =
      pad4 2023 ++ "-" ++ pad2 7 ++ "-" ++ pad2 4 ++ " " ++ pad2 9 ++ ":" ++
        pad2 5 ∧
    (7 < 100 ∧ (pad2 7).length = 2) ∧
    (2023 < 10000 ∧ (pad4 2023).length = 4) ∧
    formatValue (fun _ => "") (GoValue.timeV (GoTime.mk 2023 7 4 9 5)) =
      "2023-07-04 09:05" :=
  ⟨(C8_timestamp_format (fun _ => "")).1 (GoTime.mk 2023 7 4 9 5),
    ⟨by decide, (C8_timestamp_format (fun _ => "")).2.1 7 (by decide)⟩,
    ⟨by decide, (C8_timestamp_format (fun _ => "")).2.2.1 2023 (by decide)⟩,
    (C8_timestamp_format (fun _ => "")).2.2.2⟩

/-- C10: a non-excluded field whose type is a pointer to a (non-timestamp)
struct type is not expanded: it contributes exactly one header column
bearing its own tag, and its cell is the empty string both when the
pointer is nil and when it points at a struct value (the dereferenced
struct falls to the structured-value default of the kind switch). -/
theorem C10_pointer_to_struct_single_column (fmtFloat : Nat → String)
    (tag : String) (anon : Bool) (sfields : List GoField)
    (rest : List GoField) (h : tag ≠ "-") :
    extractHeadersFields
        (GoField.mk tag anon (GoType.ptr (GoType.structT sfields)) :: rest) =
      tag :: extractHeadersFields rest ∧
    (∀ vs : List GoValue,
      extractRowZip fmtFloat (GoValue.ptrV none :: vs)
          (GoField.mk tag anon (GoType.ptr (GoType.structT sfields)) :: rest) =
        (extractRowZip fmtFloat vs rest).map fun tail => "" :: tail) ∧
    (∀ (gs : List GoValue) (vs : List GoValue),
      extractRowZip fmtFloat (GoValue.ptrV (some (GoValue.structV gs)) :: vs)
          (GoField.mk tag anon (GoType.ptr (GoType.structT sfields)) :: rest) =
        (extractRowZip fmtFloat vs rest).map fun tail => "" :: tail) := by
  have hig : (tag == "-") = false := beq_eq_false_iff_ne.mpr h
  refine ⟨?_, ?_, ?_⟩
  · simp [extractHeadersFields, isIgnoredField_mk, hig, isSubStruct]
  · intro vs
    cases htail : extractRowZip fmtFloat vs rest with
    | none =>
      simp [extractRowZip, isIgnoredField_mk, hig, isSubStruct, htail,
        formatValue]
    | some tail =>
      simp [extractRowZip, isIgnoredField_mk, hig, isSubStruct, htail,
        formatValue, formatValueKind]
  · intro gs vs
    cases htail : extractRowZip fmtFloat vs rest with
    | none =>
      simp [extractRowZip, isIgnoredField_mk, hig, isSubStruct, htail,
        formatValue]
    | some tail =>
      simp [extractRowZip, isIgnoredField_mk, hig, isSubStruct, htail,
        formatValue, formatValueKind]

/-- C10 witness: a `user` field of pointer-to-struct type next to a string
field, with a nil and a non-nil pointer value. -/
theorem C10_pointer_to_struct_single_column_witness :
    "user" ≠ "-" ∧
    (extractHeadersFields
        [GoField.mk "user" false
            (GoType.ptr (GoType.structT [GoField.mk "name" false GoType.str])),
          GoField.mk "id" false GoType.intT] =
      "user" :: extractHeadersFields [GoField.mk "id" false GoType.intT] ∧
    extractRowZip (fun _ => "") [GoValue.ptrV none, GoValue.intV 3]
        [GoField.mk "user" false
            (GoType.ptr (GoType.structT [GoField.mk "name" false GoType.str])),
          GoField.mk "id" false GoType.intT] =
      (extractRowZip (fun _ => "") [GoValue.intV 3]
          [GoField.mk "id" false GoType.intT]).map (fun tail => "" :: tail) ∧
    extractRowZip (fun _ => "")
        [GoValue.ptrV (some (GoValue.structV [GoValue.strV "ann"])),
          GoValue.intV 3]
        [GoField.mk "user" false
            (GoType.ptr (GoType.structT [GoField.mk "name" false GoType.str])),
          GoField.mk "id" false GoType.intT] =
      (extractRowZip (fun _ => "") [GoValue.intV 3]
          [GoField.mk "id" false GoType.intT]).map (fun tail => "" :: tail)) := by
  refine ⟨by decide, ?_⟩
  have h := C10_pointer_to_struct_single_column (fun _ => "") "user" false
    [GoField.mk "name" false GoType.str] [GoField.mk "id" false GoType.intT]
    (by decide)
  exact ⟨h.1, h.2.1 [GoValue.intV 3],
    h.2.2 [GoValue.strV "ann"] [GoValue.intV 3]⟩

end Struct2CSV
